import Mathlib

/-!
Verification of the `Robot` class from `src/Robot.py` (a 2D SLAM data
generator): noisy bounded motion, landmark generation, and noisy
relative-position sensing.

The Python program draws from the process-wide `random.random()` stream,
which yields values in `[0, 1)`.  We embed that stream as an explicit
function `u : ℕ → ℚ` together with a cursor `k : ℕ` giving the index of
the next unconsumed draw; every operation returns the advanced cursor.
Machine floats are modelled as exact rationals: every arithmetic
operation the claims mention (addition, subtraction, multiplication,
comparison, absolute value, rounding) is exact here.
-/

/-- State of the robot, mirroring the attributes set in `Robot.__init__`
(`world_size`, `measurement_range`, `motion_noise`, `measurement_noise`,
`x`, `y`, `landmarks`, `num_landmarks`). Landmark coordinates are stored
as rationals (Python stores the ints returned by `round`). -/
structure Robot where
  world_size : ℚ
  measurement_range : ℚ
  motion_noise : ℚ
  measurement_noise : ℚ
  x : ℚ
  y : ℚ
  landmarks : List (ℚ × ℚ)
  num_landmarks : ℕ
deriving DecidableEq

/-- `Robot._rand`: `random.random() * 2.0 - 1.0`, i.e. the `k`-th draw of
the underlying stream rescaled from `[0,1)` to `[-1,1)`. Consumes one
draw. -/
def rand (u : ℕ → ℚ) (k : ℕ) : ℚ :=
  u k * 2 - 1

/-- `Robot.move`: draws two noise samples (indices `k`, `k+1`), forms the
noisy candidate position, rejects it (state unchanged) when either
coordinate leaves `[0, world_size]`, and otherwise commits both
coordinates.  Returns the new robot, the advanced stream cursor, and the
reported success flag. -/
def Robot.move (r : Robot) (u : ℕ → ℚ) (k : ℕ) (dx dy : ℚ) : Robot × ℕ × Bool :=
  let x := r.x + dx + rand u k * r.motion_noise
  let y := r.y + dy + rand u (k + 1) * r.motion_noise
  if (x < 0 ∨ x > r.world_size) ∨ (y < 0 ∨ y > r.world_size) then
    (r, k + 2, false)
  else
    ({ r with x := x, y := y }, k + 2, true)

/-- The loop body of `Robot.sense`, recursing over the landmark list with
the current enumeration index `idx` and stream cursor `k`.  For every
landmark two draws are consumed before the range test; the observation is
kept when `measurement_range == -1` or both axis distances are within
range (the grouping of the Python `or`/`and`). Returns the measurement
list and the advanced cursor. -/
def senseAux (r : Robot) (u : ℕ → ℚ) : ℕ → ℕ → List (ℚ × ℚ) → List (ℕ × ℚ × ℚ) × ℕ
  | k, _, [] => ([], k)
  | k, idx, (lx, ly) :: rest =>
    let dx := (lx - r.x) + rand u k * r.measurement_noise
    let dy := (ly - r.y) + rand u (k + 1) * r.measurement_noise
    let res := senseAux r u (k + 2) (idx + 1) rest
    if r.measurement_range = -1 ∨
        (|dx| ≤ r.measurement_range ∧ |dy| ≤ r.measurement_range) then
      ((idx, dx, dy) :: res.1, res.2)
    else
      res

/-- `Robot.sense`: enumerates the landmarks in order, producing one
`[index, dx, dy]` triple per observable landmark.  The method assigns to
no attribute of `self`, so the robot component of the result is the input
robot. -/
def Robot.sense (r : Robot) (u : ℕ → ℚ) (k : ℕ) :
    Robot × List (ℕ × ℚ × ℚ) × ℕ :=
  (r, senseAux r u k 0 r.landmarks)

/-- The inclusive in-bounds predicate `0 ≤ a ≤ world_size ∧ 0 ≤ b ≤
world_size` used by the boundary check of `move`. -/
def inBounds (r : Robot) (a b : ℚ) : Prop :=
  0 ≤ a ∧ a ≤ r.world_size ∧ 0 ≤ b ∧ b ≤ r.world_size

instance (r : Robot) (a b : ℚ) : Decidable (inBounds r a b) := by
  unfold inBounds; infer_instance

/-- The noise-free sensing loop described by the spec for the zero
measurement-noise case: exact differences `(landmark - position)` with
the same observability test. -/
def senseExactAux (r : Robot) : ℕ → List (ℚ × ℚ) → List (ℕ × ℚ × ℚ)
  | _, [] => []
  | idx, (lx, ly) :: rest =>
    let dx := lx - r.x
    let dy := ly - r.y
    if r.measurement_range = -1 ∨
        (|dx| ≤ r.measurement_range ∧ |dy| ≤ r.measurement_range) then
      (idx, dx, dy) :: senseExactAux r (idx + 1) rest
    else
      senseExactAux r (idx + 1) rest

/-- Noise-free `sense` over the whole landmark list. -/
def Robot.senseExact (r : Robot) : List (ℕ × ℚ × ℚ) :=
  senseExactAux r 0 r.landmarks

/-! ### Helper lemmas about the sensing loop and rounding -/

/-- The sensing loop consumes exactly two draws per landmark, observable
or not: the final cursor is the initial cursor plus twice the number of
landmarks traversed. -/
lemma senseAux_counter (r : Robot) (u : ℕ → ℚ) :
    ∀ (L : List (ℚ × ℚ)) (k idx : ℕ), (senseAux r u k idx L).2 = k + 2 * L.length
  | [], k, idx => by simp [senseAux]
  | (lx, ly) :: rest, k, idx => by
    have ih := senseAux_counter r u rest (k + 2) (idx + 1)
    simp only [senseAux]
    split_ifs <;> simp [ih, List.length_cons] <;> omega

/-- The enumeration indices kept by the sensing loop form a sublist of
the consecutive indices `idx, idx+1, ...` of the traversed landmarks. -/
lemma senseAux_fst_sublist (r : Robot) (u : ℕ → ℚ) :
    ∀ (L : List (ℚ × ℚ)) (k idx : ℕ),
      List.Sublist (((senseAux r u k idx L).1).map Prod.fst)
        (List.range' idx L.length)
  | [], k, idx => by simp [senseAux]
  | (lx, ly) :: rest, k, idx => by
    have ih := senseAux_fst_sublist r u rest (k + 2) (idx + 1)
    simp only [senseAux, List.length_cons]
    rw [show List.range' idx (rest.length + 1) = idx :: List.range' (idx + 1) rest.length
      by simp [List.range']]
    split_ifs
    · simpa using List.Sublist.cons₂ idx ih
    · exact ih.cons idx

/-- With the unlimited-range sentinel, the sensing loop keeps every
landmark: the kept indices are exactly the consecutive indices of the
traversed landmarks. -/
lemma senseAux_fst_unlimited (r : Robot) (u : ℕ → ℚ) (h : r.measurement_range = -1) :
    ∀ (L : List (ℚ × ℚ)) (k idx : ℕ),
      ((senseAux r u k idx L).1).map Prod.fst = List.range' idx L.length
  | [], k, idx => by simp [senseAux]
  | (lx, ly) :: rest, k, idx => by
    have ih := senseAux_fst_unlimited r u h rest (k + 2) (idx + 1)
    simp only [senseAux]
    rw [if_pos (Or.inl h)]
    simp [ih, List.range']

/-- With zero measurement noise the sensing loop computes the exact
coordinate differences. -/
lemma senseAux_zero_noise (r : Robot) (u : ℕ → ℚ) (h : r.measurement_noise = 0) :
    ∀ (L : List (ℚ × ℚ)) (k idx : ℕ), (senseAux r u k idx L).1 = senseExactAux r idx L
  | [], k, idx => by simp [senseAux, senseExactAux]
  | (lx, ly) :: rest, k, idx => by
    have ih := senseAux_zero_noise r u h rest (k + 2) (idx + 1)
    simp only [senseAux, senseExactAux, h, mul_zero, add_zero]
    split_ifs <;> simp [ih]

/-- With a negative measurement range other than the sentinel `-1`, the
range test can never pass, so the sensing loop keeps nothing. -/
lemma senseAux_neg_range (r : Robot) (u : ℕ → ℚ) (h1 : r.measurement_range < 0)
    (h2 : r.measurement_range ≠ -1) :
    ∀ (L : List (ℚ × ℚ)) (k idx : ℕ), (senseAux r u k idx L).1 = []
  | [], k, idx => by simp [senseAux]
  | (lx, ly) :: rest, k, idx => by
    have ih := senseAux_neg_range r u h1 h2 rest (k + 2) (idx + 1)
    simp only [senseAux]
    rw [if_neg]
    · exact ih
    · rintro (hc | ⟨hdx, hdy⟩)
      · exact h2 hc
      · exact absurd (le_trans (abs_nonneg _) hdx) (not_le.mpr h1)

/-- Claim C1: with `measurement_range == -1`, `sense()` returns exactly
one observation triple per landmark — the output indices are exactly
`0..n-1` in order — for every landmark list and noise realization; the
sentinel bypasses both axis range checks. -/
theorem sense_unlimited_full_coverage (r : Robot) (u : ℕ → ℚ) (k : ℕ)
    (h : r.measurement_range = -1) :
    ((r.sense u k).2.1).map Prod.fst = List.range r.landmarks.length ∧
    ((r.sense u k).2.1).length = r.landmarks.length := by
  have hmap : ((senseAux r u k 0 r.landmarks).1).map Prod.fst =
      List.range' 0 r.landmarks.length := senseAux_fst_unlimited r u h r.landmarks k 0
  constructor
  · calc ((r.sense u k).2.1).map Prod.fst = List.range' 0 r.landmarks.length := hmap
      _ = List.range r.landmarks.length := (List.range_eq_range' _).symm
  · have hlen := congrArg List.length hmap
    simpa using hlen

/-- Claim C2: a move is accepted exactly when the noisy candidate
position lies within the inclusive bounds `[0, world_size]` on both axes,
and after every accepted move the robot position satisfies those
bounds. -/
theorem move_accept_iff_inBounds (r : Robot) (u : ℕ → ℚ) (k : ℕ) (dx dy : ℚ) :
    ((r.move u k dx dy).2.2 = true ↔
      inBounds r (r.x + dx + rand u k * r.motion_noise)
        (r.y + dy + rand u (k + 1) * r.motion_noise)) ∧
    ((r.move u k dx dy).2.2 = true →
      inBounds r (r.move u k dx dy).1.x (r.move u k dx dy).1.y) := by
  simp only [Robot.move, inBounds]
  split_ifs with h
  · constructor
    · constructor
      · intro hfalse
        exact hfalse.elim
      · rintro ⟨ha, hb, hc, hd⟩
        exfalso
        rcases h with (h | h) | (h | h) <;> linarith
    · intro hfalse
      exact hfalse.elim
  · push_neg at h
    obtain ⟨⟨ha, hb⟩, hc, hd⟩ := h
    refine ⟨⟨fun _ => ⟨ha, hb, hc, hd⟩, fun _ => rfl⟩, fun _ => ⟨ha, hb, hc, hd⟩⟩

/-- Claim C3: a rejected move leaves the whole robot state unchanged, and
an accepted move updates exactly the two coordinates, both to their noisy
candidates, atomically. -/
theorem move_frame (r : Robot) (u : ℕ → ℚ) (k : ℕ) (dx dy : ℚ) :
    ((r.move u k dx dy).2.2 = false → (r.move u k dx dy).1 = r) ∧
    ((r.move u k dx dy).2.2 = true →
      (r.move u k dx dy).1 =
        { r with x := r.x + dx + rand u k * r.motion_noise,
                 y := r.y + dy + rand u (k + 1) * r.motion_noise }) := by
  simp only [Robot.move]
  split_ifs with h
  · exact ⟨fun _ => rfl, fun ht => ht.elim⟩
  · exact ⟨fun hf => hf.elim, fun _ => rfl⟩

/-- Claim C6: `move` consumes exactly two draws from the noise source
even when rejected, and `sense` consumes exactly two draws per landmark
regardless of observability: the returned cursors advance by fixed
amounts. -/
theorem noise_draw_count (r : Robot) (u : ℕ → ℚ) (k : ℕ) (dx dy : ℚ) :
    (r.move u k dx dy).2.1 = k + 2 ∧
    (r.sense u k).2.2 = k + 2 * r.landmarks.length := by
  constructor
  · simp only [Robot.move]
    split_ifs <;> rfl
  · exact senseAux_counter r u r.landmarks k 0

/-- Claim C7: `sense` mutates no robot field — position, landmarks,
landmark count and all parameters are unchanged; in this embedding its
only effect is advancing the noise-stream cursor. -/
theorem sense_pure (r : Robot) (u : ℕ → ℚ) (k : ℕ) :
    (r.sense u k).1.x = r.x ∧ (r.sense u k).1.y = r.y ∧
    (r.sense u k).1.landmarks = r.landmarks ∧
    (r.sense u k).1.num_landmarks = r.num_landmarks ∧
    (r.sense u k).1.world_size = r.world_size ∧
    (r.sense u k).1.measurement_range = r.measurement_range ∧
    (r.sense u k).1.motion_noise = r.motion_noise ∧
    (r.sense u k).1.measurement_noise = r.measurement_noise ∧
    (r.sense u k).1 = r :=
  ⟨rfl, rfl, rfl, rfl, rfl, rfl, rfl, rfl, rfl⟩

/-- Claim C4: with zero motion and measurement noise the robot is exactly
deterministic — an in-bounds candidate `(x+dx, y+dy)` is accepted and
becomes the new position, and `sense` returns the exact coordinate
differences for each observable landmark. -/
theorem zero_noise_deterministic (r : Robot) (u : ℕ → ℚ) (k : ℕ) (dx dy : ℚ)
    (hm : r.motion_noise = 0) (hs : r.measurement_noise = 0) :
    (inBounds r (r.x + dx) (r.y + dy) →
      (r.move u k dx dy).2.2 = true ∧
      (r.move u k dx dy).1.x = r.x + dx ∧ (r.move u k dx dy).1.y = r.y + dy) ∧
    (r.sense u k).2.1 = r.senseExact := by
  constructor
  · intro hb
    obtain ⟨ha, hb', hc, hd⟩ := hb
    simp only [Robot.move, hm, mul_zero, add_zero]
    rw [if_neg]
    · exact ⟨rfl, rfl, rfl⟩
    · rintro ((hcon | hcon) | (hcon | hcon)) <;> linarith
  · exact senseAux_zero_noise r u hs r.landmarks k 0

/-- Claim C8: the indices in a `sense` output are strictly ascending
(hence duplicate-free) and all lie below `num_landmarks` whenever the
landmark-count invariant holds. -/
theorem sense_output_ordered (r : Robot) (u : ℕ → ℚ) (k : ℕ)
    (h : r.num_landmarks = r.landmarks.length) :
    (((r.sense u k).2.1).map Prod.fst).Pairwise (· < ·) ∧
    ∀ e ∈ (r.sense u k).2.1, e.1 < r.num_landmarks := by
  have hs := senseAux_fst_sublist r u r.landmarks k 0
  constructor
  · exact (List.pairwise_lt_range' 0 r.landmarks.length).sublist hs
  · intro e he
    have hm : e.1 ∈ List.range' 0 r.landmarks.length :=
      hs.subset (List.mem_map_of_mem Prod.fst he)
    rw [List.mem_range'_1] at hm
    rw [h]
    omega

/-- Claim C10: with a negative `measurement_range` other than the exact
sentinel `-1` (for example `-2`), `sense` returns the empty list for
every landmark set and noise realization. -/
theorem sense_negative_range_empty (r : Robot) (u : ℕ → ℚ) (k : ℕ)
    (h1 : r.measurement_range < 0) (h2 : r.measurement_range ≠ -1) :
    (r.sense u k).2.1 = [] :=
  senseAux_neg_range r u h1 h2 r.landmarks k 0

/-- Claim C9 (amended): from the center of a `world_size = 100` world,
`move(200, 0)` is rejected with state unchanged for every noise draw in
`[0, 1)` provided `0 ≤ motion_noise < 150`; for larger noise scales the
bounded draw can pull the candidate back in bounds (see the
counterexample). -/
theorem move_overshoot_rejected (r : Robot) (u : ℕ → ℚ) (k : ℕ)
    (hws : r.world_size = 100) (hx : r.x = 50)
    (hm0 : 0 ≤ r.motion_noise) (hm1 : r.motion_noise < 150)
    (hu : ∀ i, 0 ≤ u i ∧ u i < 1) :
    (r.move u k 200 0).2.2 = false ∧ (r.move u k 200 0).1 = r := by
  have hlow : -1 ≤ rand u k := by
    have h0 := (hu k).1
    unfold rand
    linarith
  have hmul : -r.motion_noise ≤ rand u k * r.motion_noise := by nlinarith
  have hover : r.x + 200 + rand u k * r.motion_noise > r.world_size := by
    rw [hx, hws]
    linarith
  simp only [Robot.move]
  rw [if_pos (Or.inl (Or.inr hover))]
  exact ⟨rfl, rfl⟩

/-- A valid raw-draw stream: the constant draw `1/2` lies in `[0, 1)` and
makes every rescaled noise sample zero. -/
def uW : ℕ → ℚ := fun _ => 1 / 2

/-- Raw-draw stream whose first draw is `0` (rescaled noise `-1`) and
whose later draws are `1/2` (rescaled noise `0`); all draws in `[0, 1)`. -/
def uC9 : ℕ → ℚ := fun i => if i = 0 then 0 else 1 / 2

/-- A noise-free robot with unlimited measurement range at the center of
a `100 × 100` world, with two landmarks. -/
def rW1 : Robot :=
  { world_size := 100, measurement_range := -1, motion_noise := 0,
    measurement_noise := 0, x := 50, y := 50,
    landmarks := [(10, 10), (90, 20)], num_landmarks := 2 }

/-- The same robot with the non-sentinel negative measurement range `-2`. -/
def rW2 : Robot := { rW1 with measurement_range := -2 }

/-- A robot at the center of a `100 × 100` world with motion-noise scale
`200`. -/
def rC9 : Robot :=
  { world_size := 100, measurement_range := 30, motion_noise := 200,
    measurement_noise := 1, x := 50, y := 50, landmarks := [],
    num_landmarks := 0 }

/-- The same robot with motion-noise scale `1`. -/
def rC9b : Robot := { rC9 with motion_noise := 1 }

/-- Counterexample to claim C9 as stated: with noise scale `200 ≥ 0` and
valid draws (first rescaled draw `-1`, second `0`), `move(200, 0)` from
the center of a `world_size = 100` world is accepted — the candidate
`50 + 200 - 200 = 50` is back in bounds — so the rejection property does
not hold for arbitrary noise scales. -/
theorem move_overshoot_accepted_with_large_noise :
    (0 ≤ uC9 0 ∧ uC9 0 < 1) ∧ (0 ≤ uC9 1 ∧ uC9 1 < 1) ∧
    0 ≤ rC9.motion_noise ∧ (rC9.move uC9 0 200 0).2.2 = true ∧
    (rC9.move uC9 0 200 0).1.x = 50 := by
  norm_num [Robot.move, rand, rC9, uC9]

/-- Witness for C1: full coverage at a concrete unlimited-range robot
with two landmarks. -/
theorem sense_unlimited_full_coverage_witness :
    ((rW1.sense uW 0).2.1).map Prod.fst = List.range rW1.landmarks.length ∧
    ((rW1.sense uW 0).2.1).length = rW1.landmarks.length :=
  sense_unlimited_full_coverage rW1 uW 0 rfl

/-- Witness for C2: a concrete accepted move lands in bounds. -/
theorem move_accept_iff_inBounds_witness :
    (rW1.move uW 0 1 1).2.2 = true ∧
    inBounds rW1 (rW1.move uW 0 1 1).1.x (rW1.move uW 0 1 1).1.y := by
  have h := move_accept_iff_inBounds rW1 uW 0 1 1
  have hb : inBounds rW1 (rW1.x + 1 + rand uW 0 * rW1.motion_noise)
      (rW1.y + 1 + rand uW (0 + 1) * rW1.motion_noise) := by
    norm_num [inBounds, rW1, rand, uW]
  exact ⟨h.1.mpr hb, h.2 (h.1.mpr hb)⟩

/-- Witness for C3: a concrete rejected move leaves the robot record
unchanged. -/
theorem move_frame_witness : (rC9b.move uW 0 200 0).1 = rC9b := by
  have h := move_frame rC9b uW 0 200 0
  exact h.1 (by norm_num [Robot.move, rand, rC9b, rC9, uW])

/-- Witness for C4: the concrete noise-free robot moves deterministically
and senses exact differences. -/
theorem zero_noise_deterministic_witness :
    (rW1.move uW 0 1 1).2.2 = true ∧ (rW1.move uW 0 1 1).1.x = rW1.x + 1 ∧
    (rW1.move uW 0 1 1).1.y = rW1.y + 1 ∧ (rW1.sense uW 0).2.1 = rW1.senseExact := by
  have h := zero_noise_deterministic rW1 uW 0 1 1 rfl rfl
  have hb : inBounds rW1 (rW1.x + 1) (rW1.y + 1) := by norm_num [inBounds, rW1]
  exact ⟨(h.1 hb).1, (h.1 hb).2.1, (h.1 hb).2.2, h.2⟩

/-- Witness for C8: a concrete sense output has strictly ascending
indices and every index below the landmark count. -/
theorem sense_output_ordered_witness :
    (((rW1.sense uW 0).2.1).map Prod.fst).Pairwise (· < ·) ∧
    ((0 : ℕ), (-40 : ℚ), (-40 : ℚ)).1 < rW1.num_landmarks := by
  have h := sense_output_ordered rW1 uW 0 rfl
  refine ⟨h.1, h.2 (0, -40, -40) ?_⟩
  norm_num [Robot.sense, senseAux, rand, rW1, uW]

/-- Witness for C9 (amended): with noise scale `1` the concrete overshoot
move is rejected and the robot is unchanged. -/
theorem move_overshoot_rejected_witness :
    (rC9b.move uW 0 200 0).2.2 = false ∧ (rC9b.move uW 0 200 0).1 = rC9b :=
  move_overshoot_rejected rC9b uW 0 rfl rfl (by norm_num [rC9b, rC9])
    (by norm_num [rC9b, rC9]) (fun i => by norm_num [uW])

/-- Witness for C10: with measurement range `-2` the concrete robot
senses nothing. -/
theorem sense_negative_range_empty_witness : (rW2.sense uW 0).2.1 = [] :=
  sense_negative_range_empty rW2 uW 0 (by norm_num [rW2, rW1])
    (by norm_num [rW2, rW1])
